import Mathlib

/-!
Verification development for the `SimpleFS` userspace filesystem example
(`examples/simple.rs`).

Embedding conventions:
* Machine integers (`u16`, `u32`, `u64`) are modelled as `Nat`; wherever the
  source performs a narrowing cast, an explicit `% 2 ^ w` appears.  The
  subtractions in `check_access` can never underflow (`x &&& y ≤ x`), so plain
  `Nat` subtraction is exact there.  Rust's `u64::saturating_sub` coincides
  with truncated `Nat` subtraction.
* `SystemTime` values are modelled as `Nat` instants; each handler receives the
  current instant as an explicit `now` parameter standing for the
  `SystemTime::now()` calls it performs.
* Path components (`OsStr`) are modelled as `String`; the source's
  "not UTF-8 ⇒ EINVAL" branches are therefore unreachable in the model and
  omitted.  Byte lengths use `String.utf8ByteSize`, matching `OsStr::len`.
* The on-disk stores (`$data_dir/inodes/<n>` and `$data_dir/contents/<n>`) are
  association lists keyed by inode id.  Since the spec's codec is round-trip
  exact, a content blob is modelled by its decoded value: either raw bytes or
  a `DirectoryDescriptor`.  `BTreeMap` is modelled as an association list with
  the same `get` / `insert` (replace) / `remove` / `len` interface.
* Fallible Rust paths return `Outcome`: `.err e` models `reply.error(e)` /
  `Err(e)`, `.ok` a successful reply, and `.panic` an `unwrap()` on a missing
  or undecodable file (process abort).  Mutating handlers return
  `Outcome α × FS` so that the store state at the moment of an error reply is
  visible.
-/

namespace SimpleFS

/-- POSIX access-mask constant `F_OK` (existence test). -/
def F_OK : Nat := 0

/-- POSIX access-mask constant `X_OK`. -/
def X_OK : Nat := 1

/-- POSIX access-mask constant `W_OK`. -/
def W_OK : Nat := 2

/-- POSIX access-mask constant `R_OK`. -/
def R_OK : Nat := 4

/-- Sticky bit `S_ISVTX` = `0o1000`. -/
def S_ISVTX : Nat := 512

/-- `MAX_FILE_SIZE` from the source: 1 TiB. -/
def MAX_FILE_SIZE : Nat := 1024 * 1024 * 1024 * 1024

/-- `MAX_NAME_LENGTH` from the source. -/
def MAX_NAME_LENGTH : Nat := 255

/-- `FILE_HANDLE_READ_BIT` = `1 << 63`. -/
def FILE_HANDLE_READ_BIT : Nat := 2 ^ 63

/-- `FILE_HANDLE_WRITE_BIT` = `1 << 62`. -/
def FILE_HANDLE_WRITE_BIT : Nat := 2 ^ 62

/-- The `FileKind` enum of the source. -/
inductive FileKind where
  | File
  | Directory
  | Symlink
deriving DecidableEq, Repr

/-- POSIX error numbers used by the handlers (the wire errno values). -/
inductive Errno where
  | EACCES
  | ENOENT
  | EPERM
  | EFBIG
  | ENOTEMPTY
  | EINVAL
  | ENAMETOOLONG
  | EEXIST
  | EBADF
  | ENOSYS
deriving DecidableEq, Repr

/-- The `InodeAttributes` record of the source (time stamps as `Nat`
instants, `xattrs` as an association list of byte strings). -/
structure InodeAttributes where
  inode : Nat
  open_file_handles : Nat
  size : Nat
  last_accessed : Nat
  last_modified : Nat
  last_metadata_changed : Nat
  kind : FileKind
  mode : Nat
  hardlinks : Nat
  uid : Nat
  gid : Nat
  xattrs : List (List Nat × List Nat) := []
deriving DecidableEq, Repr

/-- Result of a handler step: a success value, an errno reply, or a process
abort caused by an `unwrap()` of a failed host-filesystem call. -/
inductive Outcome (α : Type) where
  | panic
  | err (e : Errno)
  | ok (a : α)
deriving DecidableEq, Repr

/-- Association-list lookup, first matching key (models `BTreeMap::get`). -/
def aGet {κ α : Type} [DecidableEq κ] : List (κ × α) → κ → Option α
  | [], _ => none
  | (k', v) :: rest, k => if k' = k then some v else aGet rest k

/-- Association-list insert: replaces the value at an existing key, else
appends (models `BTreeMap::insert`). -/
def aInsert {κ α : Type} [DecidableEq κ] : List (κ × α) → κ → α → List (κ × α)
  | [], k, v => [(k, v)]
  | (k', v') :: rest, k, v =>
    if k' = k then (k, v) :: rest else (k', v') :: aInsert rest k v

/-- Association-list removal of a key (models `BTreeMap::remove`). -/
def aRemove {κ α : Type} [DecidableEq κ] : List (κ × α) → κ → List (κ × α)
  | [], _ => []
  | (k', v') :: rest, k =>
    if k' = k then aRemove rest k else (k', v') :: aRemove rest k

/-- The pure permission check `check_access` of the source, line for line.
`access_mask -= access_mask & x` is exact `Nat` subtraction because
`a &&& x ≤ a`. -/
def check_access (file_uid file_gid file_mode uid gid access_mask : Nat) : Bool :=
  if access_mask = F_OK then true
  else if uid = 0 then
    let am0 := access_mask &&& X_OK
    let am1 := am0 - (am0 &&& (file_mode >>> 6))
    let am2 := am1 - (am1 &&& (file_mode >>> 3))
    let am3 := am2 - (am2 &&& file_mode)
    decide (am3 = 0)
  else if uid = file_uid then
    decide (access_mask - (access_mask &&& (file_mode >>> 6)) = 0)
  else if gid = file_gid then
    decide (access_mask - (access_mask &&& (file_mode >>> 3)) = 0)
  else
    decide (access_mask - (access_mask &&& file_mode) = 0)

/-- `check_file_handle_read`: bit 63 test. -/
def check_file_handle_read (file_handle : Nat) : Bool :=
  decide (file_handle &&& FILE_HANDLE_READ_BIT ≠ 0)

/-- `check_file_handle_write`: bit 62 test. -/
def check_file_handle_write (file_handle : Nat) : Bool :=
  decide (file_handle &&& FILE_HANDLE_WRITE_BIT ≠ 0)

/-- `allocate_next_file_handle`, as a function of the counter value `fh`
fetched from `next_file_handle`: asserts the counter has not overflowed into
the two permission bits, then sets bit 63 for read intent and bit 62 for
write intent. -/
def allocate_next_file_handle (fh : Nat) (read write : Bool) : Outcome Nat :=
  if fh < FILE_HANDLE_WRITE_BIT ∧ fh < FILE_HANDLE_READ_BIT then
    let fh1 := if read then fh ||| FILE_HANDLE_READ_BIT else fh
    let fh2 := if write then fh1 ||| FILE_HANDLE_WRITE_BIT else fh1
    .ok fh2
  else .panic

/-- The `DirectoryDescriptor` of the source: a name-keyed map to
`(inode, kind)` pairs. -/
abbrev DirectoryDescriptor := List (String × (Nat × FileKind))

/-- Tag byte for a `FileKind` in the serialized image of a directory. -/
def kindTag : FileKind → Nat
  | .File => 0
  | .Directory => 1
  | .Symlink => 2

/-- Little-endian 8-byte image of a `u64`. -/
def natBytesLE8 (n : Nat) : List Nat :=
  (List.range 8).map fun i => n / 256 ^ i % 256

/-- Serialized byte image of a directory descriptor.  The source uses
`bincode`; per spec §4.B the concrete framing is implementation-defined and
only needs to round-trip, so the model uses this stand-in framing.  It is
never decoded: `get_directory_content` works on the decoded value directly. -/
def encodeDir (d : DirectoryDescriptor) : List Nat :=
  (d.map fun e =>
    (e.1.toUTF8.toList.map fun b => b.toNat) ++ natBytesLE8 e.2.1 ++ [kindTag e.2.2]).flatten

/-- A content blob under `$data_dir/contents/<n>`, modelled by its decoded
value: raw bytes for files and symlinks, a directory descriptor for
directories (the codec is round-trip exact, spec §4.B). -/
inductive Content where
  | bytes (data : List Nat)
  | dir (entries : DirectoryDescriptor)
deriving DecidableEq, Repr

/-- Byte view of a content blob, as `File::open` + `read` would see it. -/
def Content.toBytes : Content → List Nat
  | .bytes data => data
  | .dir d => encodeDir d

/-- The persistent state: the `$data_dir/inodes` directory (metadata files)
and the `$data_dir/contents` directory (content files), keyed by inode id. -/
structure FS where
  inodes : List (Nat × InodeAttributes)
  contents : List (Nat × Content)
deriving DecidableEq, Repr

/-- `get_inode`: absence of the metadata file maps to `ENOENT`. -/
def get_inode (fs : FS) (inode : Nat) : Outcome InodeAttributes :=
  match aGet fs.inodes inode with
  | some attrs => .ok attrs
  | none => .err .ENOENT

/-- `write_inode`: create-or-truncate write of the metadata file. -/
def write_inode (fs : FS) (attrs : InodeAttributes) : FS :=
  { fs with inodes := aInsert fs.inodes attrs.inode attrs }

/-- `get_directory_content`: absence maps to `ENOENT`; a blob that does not
deserialize as a directory descriptor makes the `unwrap()` panic. -/
def get_directory_content (fs : FS) (inode : Nat) : Outcome DirectoryDescriptor :=
  match aGet fs.contents inode with
  | some (Content.dir entries) => .ok entries
  | some (Content.bytes _) => .panic
  | none => .err .ENOENT

/-- `write_directory_content`: create-or-truncate write of the content file. -/
def write_directory_content (fs : FS) (inode : Nat) (entries : DirectoryDescriptor) : FS :=
  { fs with contents := aInsert fs.contents inode (Content.dir entries) }

/-- `gc_inode`: removes both on-disk files when the link count and the open
handle count are both zero; `fs::remove_file(..).unwrap()` panics when a file
to remove is absent. -/
def gc_inode (fs : FS) (attrs : InodeAttributes) : Outcome Bool × FS :=
  if attrs.hardlinks = 0 ∧ attrs.open_file_handles = 0 then
    match aGet fs.inodes attrs.inode, aGet fs.contents attrs.inode with
    | some _, some _ =>
      (.ok true, ⟨aRemove fs.inodes attrs.inode, aRemove fs.contents attrs.inode⟩)
    | _, _ => (.panic, fs)
  else (.ok false, fs)

/-- Result of `File::set_len` on a byte string. -/
def setLenBytes (data : List Nat) (n : Nat) : List Nat :=
  if n ≤ data.length then data.take n else data ++ List.replicate (n - data.length) 0

/-- `File::set_len` on a content blob; applied to a directory blob it acts on
the serialized image (leaving a raw byte blob that no longer deserializes). -/
def content_set_len (c : Content) (n : Nat) : Content :=
  match c with
  | .bytes data => .bytes (setLenBytes data n)
  | .dir d => .bytes (setLenBytes (encodeDir d) n)

/-- The `truncate` helper of `SimpleFS` (source lines 225-260).  The
`OpenOptions..open(&path).unwrap()` panics when the content file is absent. -/
def truncate (fs : FS) (now inode new_length uid gid : Nat) :
    Outcome InodeAttributes × FS :=
  if new_length > MAX_FILE_SIZE then (.err .EFBIG, fs)
  else
    match get_inode fs inode with
    | .panic => (.panic, fs)
    | .err e => (.err e, fs)
    | .ok attrs =>
      if check_access attrs.uid attrs.gid attrs.mode uid gid W_OK = false then
        (.err .EACCES, fs)
      else
        match aGet fs.contents inode with
        | none => (.panic, fs)
        | some c =>
          let fs1 : FS := { fs with contents := aInsert fs.contents inode (content_set_len c new_length) }
          let attrs1 := { attrs with
            size := new_length, last_metadata_changed := now, last_modified := now }
          (.ok attrs1, write_inode fs1 attrs1)

/-- The `lookup_name` helper (source lines 262-276); the name is a `String`,
so the non-UTF-8 `EINVAL` branch is unreachable in the model. -/
def lookup_name (fs : FS) (parent : Nat) (name : String) : Outcome InodeAttributes :=
  match get_directory_content fs parent with
  | .panic => .panic
  | .err e => .err e
  | .ok entries =>
    match aGet entries name with
    | some (inode, _) => get_inode fs inode
    | none => .err .ENOENT

/-- The `lookup` handler (source lines 351-373).  Note the
`self.get_inode(parent).unwrap()` : a missing parent metadata file aborts the
process instead of producing an errno reply. -/
def lookup (fs : FS) (ruid rgid parent : Nat) (name : String) :
    Outcome InodeAttributes :=
  if name.utf8ByteSize > MAX_NAME_LENGTH then .err .ENAMETOOLONG
  else
    match get_inode fs parent with
    | .ok parent_attrs =>
      if check_access parent_attrs.uid parent_attrs.gid parent_attrs.mode ruid rgid X_OK = false then
        .err .EACCES
      else lookup_name fs parent name
    | .err _ => .panic
    | .panic => .panic

/-- The `read` handler (source lines 1127-1155).  `read_size` truncates the
available byte count to `u32` exactly as
`file_size.saturating_sub(offset) as u32` does; `read_exact_at` on a
zero-length buffer always succeeds. -/
def read (fs : FS) (inode fh offset size : Nat) : Outcome (List Nat) :=
  if check_file_handle_read fh = false then .err .EACCES
  else
    match aGet fs.contents inode with
    | none => .err .ENOENT
    | some c =>
      let data := c.toBytes
      let read_size := min size ((data.length - offset) % 4294967296)
      if offset + read_size ≤ data.length then .ok ((data.drop offset).take read_size)
      else if read_size = 0 then .ok []
      else .panic

/-- The `unlink` handler (source lines 696-759). -/
def unlink (fs : FS) (now ruid rgid parent : Nat) (name : String) :
    Outcome Unit × FS :=
  match lookup_name fs parent name with
  | .panic => (.panic, fs)
  | .err e => (.err e, fs)
  | .ok attrs =>
    match get_inode fs parent with
    | .panic => (.panic, fs)
    | .err e => (.err e, fs)
    | .ok parent_attrs =>
      if check_access parent_attrs.uid parent_attrs.gid parent_attrs.mode ruid rgid W_OK = false then
        (.err .EACCES, fs)
      else if parent_attrs.mode &&& S_ISVTX ≠ 0 ∧ ruid ≠ 0 ∧ ruid ≠ parent_attrs.uid ∧ ruid ≠ attrs.uid then
        (.err .EACCES, fs)
      else
        let pa1 := { parent_attrs with last_metadata_changed := now, last_modified := now }
        let fs1 := write_inode fs pa1
        let a1 := { attrs with hardlinks := attrs.hardlinks - 1, last_metadata_changed := now }
        let fs2 := write_inode fs1 a1
        match gc_inode fs2 a1 with
        | (.panic, fs3) => (.panic, fs3)
        | (.err e, fs3) => (.err e, fs3)
        | (.ok _, fs3) =>
          match get_directory_content fs3 parent with
          | .ok entries => (.ok (), write_directory_content fs3 parent (aRemove entries name))
          | _ => (.panic, fs3)

/-- The `rmdir` handler (source lines 761-828).  The emptiness test reads the
victim's directory content with `unwrap()` and fires before the permission
and sticky checks. -/
def rmdir (fs : FS) (now ruid rgid parent : Nat) (name : String) :
    Outcome Unit × FS :=
  match lookup_name fs parent name with
  | .panic => (.panic, fs)
  | .err e => (.err e, fs)
  | .ok attrs =>
    match get_inode fs parent with
    | .panic => (.panic, fs)
    | .err e => (.err e, fs)
    | .ok parent_attrs =>
      match get_directory_content fs attrs.inode with
      | .panic => (.panic, fs)
      | .err _ => (.panic, fs)
      | .ok victim_entries =>
        if victim_entries.length > 2 then (.err .ENOTEMPTY, fs)
        else if check_access parent_attrs.uid parent_attrs.gid parent_attrs.mode ruid rgid W_OK = false then
          (.err .EACCES, fs)
        else if parent_attrs.mode &&& S_ISVTX ≠ 0 ∧ ruid ≠ 0 ∧ ruid ≠ parent_attrs.uid ∧ ruid ≠ attrs.uid then
          (.err .EACCES, fs)
        else
          let pa1 := { parent_attrs with last_metadata_changed := now, last_modified := now }
          let fs1 := write_inode fs pa1
          let a1 := { attrs with hardlinks := 0, last_metadata_changed := now }
          let fs2 := write_inode fs1 a1
          match gc_inode fs2 a1 with
          | (.panic, fs3) => (.panic, fs3)
          | (.err e, fs3) => (.err e, fs3)
          | (.ok _, fs3) =>
            match get_directory_content fs3 parent with
            | .ok entries => (.ok (), write_directory_content fs3 parent (aRemove entries name))
            | _ => (.panic, fs3)

/-- The size branch of `setattr` (source lines 460-480): with a write-capable
handle the truncate runs as uid 0 / gid 0 (skipping the caller's access
check); with a handle lacking the write bit it is `EACCES`; with no handle it
runs as the caller. -/
def setattr_size_step (fs : FS) (now ruid rgid inode : Nat)
    (size fh : Option Nat) : Outcome Unit × FS :=
  match size with
  | none => (.ok (), fs)
  | some s =>
    match fh with
    | some handle =>
      if check_file_handle_write handle then
        match truncate fs now inode s 0 0 with
        | (.ok _, fs1) => (.ok (), fs1)
        | (.err e, fs1) => (.err e, fs1)
        | (.panic, fs1) => (.panic, fs1)
      else (.err .EACCES, fs)
    | none =>
      match truncate fs now inode s ruid rgid with
      | (.ok _, fs1) => (.ok (), fs1)
      | (.err e, fs1) => (.err e, fs1)
      | (.panic, fs1) => (.panic, fs1)

/-- The `utimens` branch of `setattr` (source lines 482-517), operating on
the attribute record read at handler entry. -/
def setattr_times_step (fs : FS) (now ruid rgid : Nat) (attrs0 : InodeAttributes)
    (atime : Option Nat) (atime_now : Bool) (mtime : Option Nat) (mtime_now : Bool) :
    Outcome Unit × FS :=
  if atime.isSome ∨ mtime.isSome then
    let atimeV := if atime_now then some now else atime
    let mtimeV := if mtime_now then some now else mtime
    if attrs0.uid ≠ ruid ∧ ruid ≠ 0 ∧ (¬ atime_now ∨ ¬ mtime_now) then (.err .EPERM, fs)
    else if attrs0.uid ≠ ruid ∧
        check_access attrs0.uid attrs0.gid attrs0.mode ruid rgid W_OK = false then
      (.err .EACCES, fs)
    else
      let a1 := match atimeV with
        | some t => { attrs0 with last_accessed := t }
        | none => attrs0
      let a2 := match mtimeV with
        | some t => { a1 with last_modified := t }
        | none => a1
      (.ok (), write_inode fs a2)
  else (.ok (), fs)

/-- The `setattr` handler (source lines 384-522).  `groups` stands for the
injected `get_groups(req.pid())` capability; the chmod and chown branches
reply and return immediately, the size and time branches fall through to a
final re-read of the inode. -/
def setattr (fs : FS) (now ruid rgid : Nat) (groups : List Nat) (inode : Nat)
    (mode uid gid size : Option Nat)
    (atime : Option Nat) (atime_now : Bool)
    (mtime : Option Nat) (mtime_now : Bool)
    (fh : Option Nat) : Outcome InodeAttributes × FS :=
  match get_inode fs inode with
  | .panic => (.panic, fs)
  | .err e => (.err e, fs)
  | .ok attrs0 =>
    match mode with
    | some m =>
      if ruid ≠ 0 ∧ ruid ≠ attrs0.uid then (.err .EPERM, fs)
      else
        let a1 := { attrs0 with mode := m % 65536, last_metadata_changed := now }
        (.ok a1, write_inode fs a1)
    | none =>
      if uid.isSome ∨ gid.isSome then
        if (match gid with
            | some g => decide (ruid ≠ 0 ∧ ¬ g ∈ groups)
            | none => false) then (.err .EPERM, fs)
        else if (match uid with
            | some u => decide (ruid ≠ 0 ∧ ¬ (u = attrs0.uid ∧ ruid = attrs0.uid))
            | none => false) then (.err .EPERM, fs)
        else if gid.isSome ∧ ruid ≠ 0 ∧ ruid ≠ attrs0.uid then (.err .EPERM, fs)
        else
          let a1 := { attrs0 with
            uid := uid.getD attrs0.uid, gid := gid.getD attrs0.gid,
            last_metadata_changed := now }
          (.ok a1, write_inode fs a1)
      else
        match setattr_size_step fs now ruid rgid inode size fh with
        | (.err e, fs1) => (.err e, fs1)
        | (.panic, fs1) => (.panic, fs1)
        | (.ok _, fs1) =>
          match setattr_times_step fs1 now ruid rgid attrs0 atime atime_now mtime mtime_now with
          | (.err e, fs2) => (.err e, fs2)
          | (.panic, fs2) => (.panic, fs2)
          | (.ok _, fs2) =>
            match get_inode fs2 inode with
            | .ok a => (.ok a, fs2)
            | _ => (.panic, fs2)

/-- The sticky check applied in `new_parent` against an existing target
during `rename` (source lines 963-974). -/
def rename_sticky_new_check (fs : FS) (ruid new_parent : Nat)
    (new_parent_attrs : InodeAttributes) (new_name : String) : Outcome Unit :=
  if new_parent_attrs.mode &&& S_ISVTX ≠ 0 then
    match lookup_name fs new_parent new_name with
    | .panic => .panic
    | .err _ => .ok ()
    | .ok existing =>
      if ruid ≠ 0 ∧ ruid ≠ new_parent_attrs.uid ∧ ruid ≠ existing.uid then .err .EACCES
      else .ok ()
  else .ok ()

/-- The only-overwrite-an-empty-directory check of `rename` (source lines
976-988); `&&` short-circuits, so the target's content is only read when the
target is a directory. -/
def rename_target_empty_check (fs : FS) (new_parent : Nat) (new_name : String) :
    Outcome Unit :=
  match lookup_name fs new_parent new_name with
  | .panic => .panic
  | .err _ => .ok ()
  | .ok t =>
    if t.kind = FileKind.Directory then
      match get_directory_content fs t.inode with
      | .ok tentries => if tentries.length > 2 then .err .ENOTEMPTY else .ok ()
      | _ => .panic
    else .ok ()

/-- The overwrite step of `rename` (source lines 1007-1021): drop the target
entry, decrement its link count (clear it for a directory), write it back and
garbage-collect. -/
def rename_overwrite_step (fs : FS) (now new_parent : Nat) (new_name : String) :
    Outcome Unit × FS :=
  match lookup_name fs new_parent new_name with
  | .panic => (.panic, fs)
  | .err _ => (.ok (), fs)
  | .ok existing =>
    match get_directory_content fs new_parent with
    | .ok entries =>
      let fs1 := write_directory_content fs new_parent (aRemove entries new_name)
      let ex1 := if existing.kind = FileKind.Directory then { existing with hardlinks := 0 }
        else { existing with hardlinks := existing.hardlinks - 1 }
      let ex2 := { ex1 with last_metadata_changed := now }
      let fs2 := write_inode fs1 ex2
      match gc_inode fs2 ex2 with
      | (.ok _, fs3) => (.ok (), fs3)
      | (.panic, fs3) => (.panic, fs3)
      | (.err e, fs3) => (.err e, fs3)
    | _ => (.panic, fs)

/-- The `rename` handler (source lines 881-1050). -/
def rename (fs : FS) (now ruid rgid parent : Nat) (name : String)
    (new_parent : Nat) (new_name : String) : Outcome Unit × FS :=
  match lookup_name fs parent name with
  | .panic => (.panic, fs)
  | .err e => (.err e, fs)
  | .ok inode_attrs =>
    match get_inode fs parent with
    | .panic => (.panic, fs)
    | .err e => (.err e, fs)
    | .ok parent_attrs =>
      if check_access parent_attrs.uid parent_attrs.gid parent_attrs.mode ruid rgid W_OK = false then
        (.err .EACCES, fs)
      else if parent_attrs.mode &&& S_ISVTX ≠ 0 ∧ ruid ≠ 0 ∧ ruid ≠ parent_attrs.uid ∧ ruid ≠ inode_attrs.uid then
        (.err .EACCES, fs)
      else
        match get_inode fs new_parent with
        | .panic => (.panic, fs)
        | .err e => (.err e, fs)
        | .ok new_parent_attrs =>
          if check_access new_parent_attrs.uid new_parent_attrs.gid new_parent_attrs.mode ruid rgid W_OK = false then
            (.err .EACCES, fs)
          else
            match rename_sticky_new_check fs ruid new_parent new_parent_attrs new_name with
            | .panic => (.panic, fs)
            | .err e => (.err e, fs)
            | .ok _ =>
              match rename_target_empty_check fs new_parent new_name with
              | .panic => (.panic, fs)
              | .err e => (.err e, fs)
              | .ok _ =>
                if inode_attrs.kind = FileKind.Directory ∧ parent ≠ new_parent ∧
                    check_access inode_attrs.uid inode_attrs.gid inode_attrs.mode ruid rgid W_OK = false then
                  (.err .EACCES, fs)
                else
                  match rename_overwrite_step fs now new_parent new_name with
                  | (.panic, fs1) => (.panic, fs1)
                  | (.err e, fs1) => (.err e, fs1)
                  | (.ok _, fs1) =>
                    match get_directory_content fs1 parent with
                    | .ok pentries =>
                      let fs2 := write_directory_content fs1 parent (aRemove pentries name)
                      match get_directory_content fs2 new_parent with
                      | .ok nentries =>
                        let fs3 := write_directory_content fs2 new_parent
                          (aInsert nentries new_name (inode_attrs.inode, inode_attrs.kind))
                        let fs4 := write_inode fs3 { parent_attrs with
                          last_metadata_changed := now, last_modified := now }
                        let fs5 := write_inode fs4 { new_parent_attrs with
                          last_metadata_changed := now, last_modified := now }
                        let fs6 := write_inode fs5 { inode_attrs with last_metadata_changed := now }
                        if inode_attrs.kind = FileKind.Directory then
                          match get_directory_content fs6 inode_attrs.inode with
                          | .ok sentries =>
                            (.ok (), write_directory_content fs6 inode_attrs.inode
                              (aInsert sentries ".." (new_parent, FileKind.Directory)))
                          | _ => (.panic, fs6)
                        else (.ok (), fs6)
                      | _ => (.panic, fs2)
                    | _ => (.panic, fs1)

/-- Attribute record builder for the concrete states used below (zero sizes
and times, no open handles). -/
def mkAttrs (i uidv gidv hl modev : Nat) (k : FileKind) : InodeAttributes :=
  { inode := i, open_file_handles := 0, size := 0, last_accessed := 0,
    last_modified := 0, last_metadata_changed := 0, kind := k, mode := modev,
    hardlinks := hl, uid := uidv, gid := gidv }

/-- A store holding one 4 GiB file at inode 2. -/
def fsBig : FS :=
  { inodes := [(2, mkAttrs 2 0 0 1 438 FileKind.File)],
    contents := [(2, Content.bytes (List.replicate 4294967296 0))] }

/-- A store holding one world-readable file (mode `0o666`) owned by uid/gid
100 at inode 2, with five content bytes. -/
def fsSmall : FS :=
  { inodes := [(2, mkAttrs 2 100 100 1 438 FileKind.File)],
    contents := [(2, Content.bytes [1, 2, 3, 4, 5])] }

/-- A store holding one file with a fully cleared permission mode (as after
`chmod 0`) owned by uid/gid 100 at inode 2. -/
def fsNoPerm : FS :=
  { inodes := [(2, mkAttrs 2 100 100 1 0 FileKind.File)],
    contents := [(2, Content.bytes [1, 2, 3, 4, 5])] }

/-- A store with a sticky world-writable root (mode `0o1777`, uid 0) holding
a file `"f"` (inode 2, uid 100) and a directory `"d"` (inode 3, uid 100),
plus a non-sticky directory 4 (mode `0o777`, uid 0) holding a file `"s"`
(inode 5, uid 200). -/
def fsSticky : FS :=
  { inodes := [(1, mkAttrs 1 0 0 2 1023 FileKind.Directory),
               (2, mkAttrs 2 100 100 1 438 FileKind.File),
               (3, mkAttrs 3 100 100 2 511 FileKind.Directory),
               (4, mkAttrs 4 0 0 2 511 FileKind.Directory),
               (5, mkAttrs 5 200 200 1 438 FileKind.File)],
    contents := [(1, Content.dir [("f", (2, FileKind.File)), ("d", (3, FileKind.Directory))]),
                 (2, Content.bytes []),
                 (3, Content.dir [(".", (3, FileKind.Directory)), ("..", (1, FileKind.Directory))]),
                 (4, Content.dir [("s", (5, FileKind.File))]),
                 (5, Content.bytes [])] }

/-- A store whose root holds the same file inode 2 under the two names
`"a"` and `"b"` (a hard-link alias, link count 2). -/
def fsAlias : FS :=
  { inodes := [(1, mkAttrs 1 0 0 2 511 FileKind.Directory),
               (2, mkAttrs 2 0 0 2 438 FileKind.File)],
    contents := [(1, Content.dir [("a", (2, FileKind.File)), ("b", (2, FileKind.File))]),
                 (2, Content.bytes [1, 2, 3])] }

/-- A store whose root holds files `"a"` (inode 2) and `"b"` (inode 3), both
with link count 1, and a non-empty directory `"d"` (inode 4). -/
def fsOver : FS :=
  { inodes := [(1, mkAttrs 1 0 0 2 511 FileKind.Directory),
               (2, mkAttrs 2 0 0 1 438 FileKind.File),
               (3, mkAttrs 3 0 0 1 438 FileKind.File),
               (4, mkAttrs 4 0 0 2 511 FileKind.Directory)],
    contents := [(1, Content.dir [("a", (2, FileKind.File)), ("b", (3, FileKind.File)),
                   ("d", (4, FileKind.Directory))]),
                 (2, Content.bytes []), (3, Content.bytes []),
                 (4, Content.dir [(".", (4, FileKind.Directory)), ("..", (1, FileKind.Directory)),
                   ("x", (2, FileKind.File))])] }

theorem aGet_aInsert_self {κ α : Type} [DecidableEq κ]
    (l : List (κ × α)) (k : κ) (v : α) : aGet (aInsert l k v) k = some v := by
  induction l with
  | nil => simp [aGet, aInsert]
  | cons hd tl ih =>
    obtain ⟨k', v'⟩ := hd
    by_cases h : k' = k <;> simp [aGet, aInsert, h, ih]

theorem aGet_aInsert_ne {κ α : Type} [DecidableEq κ]
    (l : List (κ × α)) (k k' : κ) (v : α) (h : k' ≠ k) :
    aGet (aInsert l k v) k' = aGet l k' := by
  have h' : ¬ k = k' := fun hh => h hh.symm
  induction l with
  | nil => simp [aGet, aInsert, h']
  | cons hd tl ih =>
    obtain ⟨k₀, v₀⟩ := hd
    by_cases h0 : k₀ = k
    · simp [aGet, aInsert, h0, h, h']
    · by_cases h1 : k₀ = k' <;> simp [aGet, aInsert, h0, h1, h, ih]

theorem aGet_aRemove_self {κ α : Type} [DecidableEq κ]
    (l : List (κ × α)) (k : κ) : aGet (aRemove l k) k = none := by
  induction l with
  | nil => simp [aGet, aRemove]
  | cons hd tl ih =>
    obtain ⟨k', v'⟩ := hd
    by_cases h : k' = k <;> simp [aGet, aRemove, h, ih]

theorem aGet_aRemove_ne {κ α : Type} [DecidableEq κ]
    (l : List (κ × α)) (k k' : κ) (h : k' ≠ k) :
    aGet (aRemove l k) k' = aGet l k' := by
  induction l with
  | nil => simp [aGet, aRemove]
  | cons hd tl ih =>
    obtain ⟨k₀, v₀⟩ := hd
    by_cases h0 : k₀ = k
    · have h' : ¬ k = k' := fun hh => h hh.symm
      simp [aGet, aRemove, h0, h', ih]
    · by_cases h1 : k₀ = k' <;> simp [aGet, aRemove, h0, h1, h, ih]

theorem and_two_pow_ne_zero (x i : Nat) : (x &&& 2 ^ i ≠ 0) ↔ x.testBit i = true := by
  constructor
  · intro h
    by_contra hb
    apply h
    have hb' : x.testBit i = false := by simpa using hb
    apply Nat.eq_of_testBit_eq
    intro j
    by_cases hj : i = j
    · subst hj
      simp [Nat.testBit_and, hb', Nat.zero_testBit]
    · simp [Nat.testBit_and, Nat.testBit_two_pow_of_ne hj, Nat.zero_testBit]
  · intro h hz
    have ht : (x &&& 2 ^ i).testBit i = true := by
      simp [Nat.testBit_and, h, Nat.testBit_two_pow_self]
    rw [hz] at ht
    simp [Nat.zero_testBit] at ht

theorem decide_and_two_pow (x i : Nat) : decide (x &&& 2 ^ i ≠ 0) = x.testBit i := by
  rcases hb : x.testBit i with _ | _
  · have hz : ¬ (x &&& 2 ^ i ≠ 0) := by
      rw [and_two_pow_ne_zero]
      simp [hb]
    simp [hz]
  · have hnz : x &&& 2 ^ i ≠ 0 := (and_two_pow_ne_zero x i).mpr hb
    simp [hnz]

/-- C1: for caller uid 0 (root), `check_access` grants every mask made of
`F_OK`/`R_OK`/`W_OK` on every mode, and grants `X_OK` exactly when one of the
execute bits 0, 3, 6 is set in the mode. -/
theorem check_access_root (fuid fgid m gid mask : Nat) :
    ((mask = F_OK ∨ mask = R_OK ∨ mask = W_OK ∨ mask = (R_OK ||| W_OK)) →
      check_access fuid fgid m 0 gid mask = true) ∧
    (check_access fuid fgid m 0 gid X_OK = true ↔
      (m.testBit 0 = true ∨ m.testBit 3 = true ∨ m.testBit 6 = true)) := by
  have t6 : m.testBit 6 = decide ((m >>> 6) % 2 = 1) := by
    rw [Nat.testBit_to_div_mod, Nat.shiftRight_eq_div_pow]
  have t3 : m.testBit 3 = decide ((m >>> 3) % 2 = 1) := by
    rw [Nat.testBit_to_div_mod, Nat.shiftRight_eq_div_pow]
  have t0 : m.testBit 0 = decide (m % 2 = 1) := by
    rw [Nat.testBit_to_div_mod]
    norm_num
  constructor
  · rintro (rfl | rfl | rfl | rfl) <;>
      simp [check_access, F_OK, R_OK, W_OK, X_OK, Nat.and_one_is_mod, Nat.zero_and]
  · rcases Nat.mod_two_eq_zero_or_one (m >>> 6) with h6 | h6 <;>
      rcases Nat.mod_two_eq_zero_or_one (m >>> 3) with h3 | h3 <;>
      rcases Nat.mod_two_eq_zero_or_one m with h0 | h0 <;>
      simp [check_access, F_OK, X_OK, Nat.one_and_eq_mod_two, Nat.and_one_is_mod,
        Nat.zero_and, h6, h3, h0, t6, t3, t0]

/-- C2: for a non-root caller and a mask other than `F_OK`, `check_access`
consults exactly one rights triplet — owner if `uid = fuid`, else group if
`gid = fgid`, else other — and grants access iff every bit of the mask is
present in that triplet (no fall-through to the other triplets). -/
theorem check_access_single_triplet
    (fuid fgid m uid gid mask : Nat) (huid : uid ≠ 0) (hmask : mask ≠ F_OK) :
    check_access fuid fgid m uid gid mask = true ↔
      mask &&& (if uid = fuid then m >>> 6 else if gid = fgid then m >>> 3 else m) = mask := by
  have key : ∀ t : Nat, decide (mask - (mask &&& t) = 0) = true ↔ mask &&& t = mask := by
    intro t
    rw [decide_eq_true_iff]
    constructor
    · intro h
      exact Nat.le_antisymm Nat.and_le_left (Nat.le_of_sub_eq_zero h)
    · intro h
      rw [h]
      exact Nat.sub_self mask
  unfold check_access
  rw [if_neg hmask, if_neg huid]
  by_cases h1 : uid = fuid
  · rw [if_pos h1, if_pos h1]
    exact key _
  · rw [if_neg h1, if_neg h1]
    by_cases h2 : gid = fgid
    · rw [if_pos h2, if_pos h2]
      exact key _
    · rw [if_neg h2, if_neg h2]
      exact key _

theorem check_access_root_witness :
    check_access 10 20 73 0 30 R_OK = true ∧ check_access 10 20 73 0 30 X_OK = true := by
  constructor
  · exact (check_access_root 10 20 73 30 R_OK).1 (Or.inr (Or.inl rfl))
  · exact (check_access_root 10 20 73 30 R_OK).2.mpr (Or.inl (by decide))

theorem check_access_single_triplet_witness :
    check_access 100 200 60 100 300 W_OK = false := by
  have h := check_access_single_triplet 100 200 60 100 300 W_OK (by decide) (by decide)
  rw [if_pos rfl] at h
  cases hb : check_access 100 200 60 100 300 W_OK
  · rfl
  · exfalso
    have hx := h.mp hb
    revert hx
    decide

/-- C8: for a counter value that has not overflowed into the two high bits,
the allocated handle stores read intent in bit 63 and write intent in
bit 62, and the two check functions recover exactly those intents. -/
theorem allocate_file_handle_encodes_intent (fh : Nat) (read write : Bool)
    (h : fh < FILE_HANDLE_WRITE_BIT) :
    ∃ hval, allocate_next_file_handle fh read write = .ok hval ∧
      check_file_handle_read hval = read ∧ check_file_handle_write hval = write := by
  have h63 : fh < FILE_HANDLE_READ_BIT := by
    have : FILE_HANDLE_WRITE_BIT < FILE_HANDLE_READ_BIT := by
      unfold FILE_HANDLE_WRITE_BIT FILE_HANDLE_READ_BIT
      norm_num
    omega
  have hb63 : fh.testBit 63 = false :=
    Nat.testBit_lt_two_pow (by simpa [FILE_HANDLE_READ_BIT] using h63)
  have hb62 : fh.testBit 62 = false :=
    Nat.testBit_lt_two_pow (by simpa [FILE_HANDLE_WRITE_BIT] using h)
  refine ⟨(if write then (if read then fh ||| FILE_HANDLE_READ_BIT else fh) ||| FILE_HANDLE_WRITE_BIT
      else (if read then fh ||| FILE_HANDLE_READ_BIT else fh)), ?_, ?_, ?_⟩
  · unfold allocate_next_file_handle
    rw [if_pos ⟨h, h63⟩]
  · unfold check_file_handle_read FILE_HANDLE_READ_BIT
    rw [decide_and_two_pow]
    cases read <;> cases write <;>
      simp [FILE_HANDLE_READ_BIT, FILE_HANDLE_WRITE_BIT, Nat.testBit_or,
        Nat.testBit_two_pow_self, Nat.testBit_two_pow_of_ne, hb63] <;> decide
  · unfold check_file_handle_write FILE_HANDLE_WRITE_BIT
    rw [decide_and_two_pow]
    cases read <;> cases write <;>
      simp [FILE_HANDLE_READ_BIT, FILE_HANDLE_WRITE_BIT, Nat.testBit_or,
        Nat.testBit_two_pow_self, Nat.testBit_two_pow_of_ne, hb62] <;> decide

theorem allocate_file_handle_witness :
    ∃ hv, allocate_next_file_handle 5 true false = .ok hv ∧
      check_file_handle_read hv = true ∧ check_file_handle_write hv = false :=
  allocate_file_handle_encodes_intent 5 true false (by decide)

/-- C7 (amended): with a read-capable handle and an existing byte-content
file, and provided the available byte count `filesize - off` fits in `u32`
(the source truncates it with `as u32`), the reply carries exactly
`min(size, filesize - off)` bytes taken from offset `off`; an offset at or
past EOF yields a zero-length successful reply. -/
theorem read_returns_requested_window
    (fs : FS) (ino fh offset size : Nat) (data : List Nat)
    (hR : check_file_handle_read fh = true)
    (hC : aGet fs.contents ino = some (Content.bytes data))
    (hbound : data.length - offset < 4294967296) :
    read fs ino fh offset size
      = .ok ((data.drop offset).take (min size (data.length - offset))) ∧
    ((data.drop offset).take (min size (data.length - offset))).length
      = min size (data.length - offset) ∧
    (data.length ≤ offset → read fs ino fh offset size = .ok []) := by
  have hmod : (data.length - offset) % 4294967296 = data.length - offset :=
    Nat.mod_eq_of_lt hbound
  have hcore : read fs ino fh offset size
      = .ok ((data.drop offset).take (min size (data.length - offset))) := by
    by_cases hle : offset ≤ data.length
    · have hmr := Nat.min_le_right size (data.length - offset)
      have hif : offset + min size (data.length - offset) ≤ data.length := by omega
      simp [read, hR, hC, Content.toBytes, hmod, hif]
    · have h0 : data.length - offset = 0 := by omega
      simp [read, hR, hC, Content.toBytes, h0, hle]
  refine ⟨hcore, ?_, ?_⟩
  · rw [List.length_take, List.length_drop]
    have hmr := Nat.min_le_right size (data.length - offset)
    omega
  · intro hpast
    rw [hcore]
    have h0 : data.length - offset = 0 := by omega
    simp [h0]

/-- C7 counterexample to the unamended claim: on a 4 GiB file (`filesize =
2^32`), a read of 10 bytes at offset 0 through a read-capable handle returns
a zero-length reply, not the `min(size, filesize - off) = 10` bytes the claim
demands, because the source computes the available count with
`file_size.saturating_sub(offset) as u32`, which wraps `2^32` to `0`. -/
theorem read_truncation_counterexample :
    read fsBig 2 (2 ^ 63) 0 10 = .ok [] ∧
    min 10 ((List.replicate 4294967296 (0 : Nat)).length - 0) = 10 := by
  have hlen : (List.replicate 4294967296 (0 : Nat)).length = 4294967296 :=
    List.length_replicate 4294967296 0
  have key : ∀ l : List Nat, l.length = 4294967296 → ∀ fsx : FS,
      fsx.contents = [(2, Content.bytes l)] → read fsx 2 (2 ^ 63) 0 10 = .ok [] := by
    intro l hl fsx hcx
    have hRb : check_file_handle_read 9223372036854775808 = true := by decide
    simp [read, hRb, hcx, aGet, Content.toBytes, hl]
  constructor
  · exact key _ hlen fsBig rfl
  · rw [hlen]
    norm_num

/-- C10: `lookup` with a short enough name aborts the process (the
`get_inode(parent).unwrap()`) whenever the parent's metadata file is absent,
and its `ENOENT` reply arises only for a name absent from an existing
parent's directory (assuming every directory entry references an existing
inode). -/
theorem lookup_panics_without_parent
    (fs : FS) (ruid rgid parent : Nat) (name : String)
    (hlen : name.utf8ByteSize ≤ MAX_NAME_LENGTH) :
    (aGet fs.inodes parent = none → lookup fs ruid rgid parent name = .panic) ∧
    (∀ pa pEnt, aGet fs.inodes parent = some pa →
      aGet fs.contents parent = some (Content.dir pEnt) →
      (∀ n i k, aGet pEnt n = some (i, k) → aGet fs.inodes i ≠ none) →
      lookup fs ruid rgid parent name = .err .ENOENT →
      aGet pEnt name = none) := by
  have hnot : ¬ name.utf8ByteSize > MAX_NAME_LENGTH := by omega
  constructor
  · intro hno
    simp [lookup, hnot, get_inode, hno]
  · intro pa pEnt hpa hpc hinv hres
    rcases ho : aGet pEnt name with _ | ⟨i, k⟩
    · rfl
    · exfalso
      have hi := hinv name i k ho
      rcases hx : aGet fs.inodes i with _ | a
      · exact hi hx
      · by_cases hacc : check_access pa.uid pa.gid pa.mode ruid rgid X_OK = false
        · rw [lookup] at hres
          simp [hnot, get_inode, hpa, hacc] at hres
        · have hacc' : check_access pa.uid pa.gid pa.mode ruid rgid X_OK = true := by
            cases hcc : check_access pa.uid pa.gid pa.mode ruid rgid X_OK
            · exact absurd hcc hacc
            · rfl
          rw [lookup] at hres
          simp [hnot, get_inode, hpa, hacc', lookup_name, get_directory_content,
            hpc, ho, hx] at hres

theorem lookup_panics_without_parent_witness :
    lookup fsBig 0 0 99 "x" = .panic ∧ lookup fsBig 0 0 99 "x" ≠ .err .ENOENT := by
  have h := lookup_panics_without_parent fsBig 0 0 99 "x" (by decide)
  have hmiss : aGet fsBig.inodes 99 = none := rfl
  refine ⟨h.1 hmiss, ?_⟩
  rw [h.1 hmiss]
  intro hc
  exact Outcome.noConfusion hc

theorem read_returns_requested_window_witness :
    read fsSmall 2 (2 ^ 63) 1 3 = .ok [2, 3, 4] := by
  have h := read_returns_requested_window fsSmall 2 (2 ^ 63) 1 3 [1, 2, 3, 4, 5]
    (by decide) rfl (by decide)
  rw [h.1]
  decide

theorem check_access_root_wok (fuid fgid fmode gid : Nat) :
    check_access fuid fgid fmode 0 gid W_OK = true := by
  simp [check_access, W_OK, F_OK, X_OK, Nat.and_one_is_mod, Nat.zero_and]

/-- C5: a `setattr` that changes the size and supplies a file handle whose
write bit (bit 62) is set truncates without consulting `check_access` — it
succeeds for every mode, owner and caller (up to the 1 TiB `EFBIG` bound);
a supplied handle lacking the write bit yields `EACCES`. -/
theorem setattr_truncate_write_handle
    (fs : FS) (now ruid rgid : Nat) (groups : List Nat) (ino s h : Nat)
    (attrs : InodeAttributes) (data : List Nat)
    (hA : aGet fs.inodes ino = some attrs)
    (hAI : attrs.inode = ino)
    (hC : aGet fs.contents ino = some (Content.bytes data)) :
    (check_file_handle_write h = true → s ≤ MAX_FILE_SIZE →
      setattr fs now ruid rgid groups ino none none none (some s) none false none false (some h)
        = (.ok { attrs with size := s, last_metadata_changed := now, last_modified := now },
           { inodes := aInsert fs.inodes ino
               { attrs with size := s, last_metadata_changed := now, last_modified := now },
             contents := aInsert fs.contents ino (Content.bytes (setLenBytes data s)) })) ∧
    (check_file_handle_write h = false →
      setattr fs now ruid rgid groups ino none none none (some s) none false none false (some h)
        = (.err .EACCES, fs)) ∧
    (check_file_handle_write h = true → s > MAX_FILE_SIZE →
      setattr fs now ruid rgid groups ino none none none (some s) none false none false (some h)
        = (.err .EFBIG, fs)) := by
  refine ⟨?_, ?_, ?_⟩
  · intro hW hs
    have hns : ¬ s > MAX_FILE_SIZE := by omega
    simp [setattr, setattr_size_step, setattr_times_step, truncate, get_inode,
      write_inode, content_set_len, hA, hAI, hC, hW, hns,
      check_access_root_wok, aGet_aInsert_self]
  · intro hW
    simp [setattr, setattr_size_step, get_inode, hA, hW]
  · intro hW hs
    simp [setattr, setattr_size_step, truncate, get_inode, hA, hW, hs]

theorem setattr_truncate_write_handle_witness :
    setattr fsNoPerm 9 500 500 [] 2 none none none (some 2) none false none false (some 7)
      = (.err .EACCES, fsNoPerm) ∧
    setattr fsNoPerm 9 500 500 [] 2 none none none (some (MAX_FILE_SIZE + 1)) none false
        none false (some (2 ^ 62))
      = (.err .EFBIG, fsNoPerm) ∧
    (setattr fsNoPerm 9 500 500 [] 2 none none none (some 2) none false none false
        (some (2 ^ 62))).1
      = .ok { mkAttrs 2 100 100 1 0 FileKind.File with
          size := 2, last_metadata_changed := 9, last_modified := 9 } := by
  have h1 := setattr_truncate_write_handle fsNoPerm 9 500 500 [] 2 2 7
    (mkAttrs 2 100 100 1 0 FileKind.File) [1, 2, 3, 4, 5] rfl rfl rfl
  have h2 := setattr_truncate_write_handle fsNoPerm 9 500 500 [] 2 (MAX_FILE_SIZE + 1) (2 ^ 62)
    (mkAttrs 2 100 100 1 0 FileKind.File) [1, 2, 3, 4, 5] rfl rfl rfl
  have h3 := setattr_truncate_write_handle fsNoPerm 9 500 500 [] 2 2 (2 ^ 62)
    (mkAttrs 2 100 100 1 0 FileKind.File) [1, 2, 3, 4, 5] rfl rfl rfl
  refine ⟨h1.2.1 (by decide), h2.2.2 (by decide) (by decide), ?_⟩
  rw [h3.1 (by decide) (by decide)]

/-- C6 (amended): in the `setattr` time branch, an explicit timestamp value
is allowed only to the owner or root (`EPERM` otherwise); a non-owner with
`W_OK` may set the timestamps to "now" only when BOTH `atime_now` and
`mtime_now` are set — a request marking just one of the two as "now" is
rejected with `EPERM` for any non-root non-owner, even with `W_OK`. -/
theorem setattr_utimens_rules
    (fs : FS) (now ruid rgid : Nat) (groups : List Nat) (ino t u : Nat)
    (attrs : InodeAttributes)
    (hA : aGet fs.inodes ino = some attrs)
    (hAI : attrs.inode = ino) :
    (attrs.uid ≠ ruid → ruid ≠ 0 →
      setattr fs now ruid rgid groups ino none none none none (some t) false (some u) false none
        = (.err .EPERM, fs)) ∧
    (attrs.uid ≠ ruid → ruid ≠ 0 →
      setattr fs now ruid rgid groups ino none none none none (some t) true none false none
        = (.err .EPERM, fs)) ∧
    (attrs.uid ≠ ruid →
      check_access attrs.uid attrs.gid attrs.mode ruid rgid W_OK = true →
      setattr fs now ruid rgid groups ino none none none none (some t) true (some u) true none
        = (.ok { attrs with last_accessed := now, last_modified := now },
           write_inode fs { attrs with last_accessed := now, last_modified := now })) ∧
    (attrs.uid = ruid →
      setattr fs now ruid rgid groups ino none none none none (some t) false (some u) false none
        = (.ok { attrs with last_accessed := t, last_modified := u },
           write_inode fs { attrs with last_accessed := t, last_modified := u })) := by
  refine ⟨?_, ?_, ?_, ?_⟩
  · intro hne hnr
    simp [setattr, setattr_size_step, setattr_times_step, get_inode, hA, hne, hnr]
  · intro hne hnr
    simp [setattr, setattr_size_step, setattr_times_step, get_inode, hA, hne, hnr]
  · intro hne hacc
    simp [setattr, setattr_size_step, setattr_times_step, get_inode, write_inode,
      hA, hAI, hne, hacc, aGet_aInsert_self]
  · intro heq
    simp [setattr, setattr_size_step, setattr_times_step, get_inode, write_inode,
      hA, hAI, heq, aGet_aInsert_self]

/-- C6 counterexample to the unamended claim: a non-owner caller (uid 200)
who has `W_OK` on a mode-`0o666` file asks for `atime := now` only
(`atime_now` set, `mtime` untouched); the claim says this succeeds, but the
handler replies `EPERM` and leaves the store unchanged. -/
theorem setattr_single_now_counterexample :
    check_access 100 100 438 200 100 W_OK = true ∧
    setattr fsSmall 9 200 100 [] 2 none none none none (some 7) true none false none
      = (.err .EPERM, fsSmall) := by
  constructor
  · decide
  · decide

theorem setattr_utimens_rules_witness :
    setattr fsSmall 9 200 100 [] 2 none none none none (some 7) false (some 8) false none
      = (.err .EPERM, fsSmall) ∧
    (setattr fsSmall 9 200 100 [] 2 none none none none (some 7) true (some 8) true none).1
      = .ok { mkAttrs 2 100 100 1 438 FileKind.File with
          last_accessed := 9, last_modified := 9 } ∧
    (setattr fsSmall 9 100 100 [] 2 none none none none (some 7) false (some 8) false none).1
      = .ok { mkAttrs 2 100 100 1 438 FileKind.File with
          last_accessed := 7, last_modified := 8 } := by
  have h := setattr_utimens_rules fsSmall 9 200 100 [] 2 7 8
    (mkAttrs 2 100 100 1 438 FileKind.File) rfl rfl
  have h2 := setattr_utimens_rules fsSmall 9 100 100 [] 2 7 8
    (mkAttrs 2 100 100 1 438 FileKind.File) rfl rfl
  refine ⟨h.1 (by decide) (by decide), ?_, ?_⟩
  · rw [h.2.2.1 (by decide) (by decide)]
  · rw [h2.2.2.2 (by decide)]

/-- C9: `unlink` never inspects the victim's kind.  Applied (with the write
and sticky checks passing) to a name bound to a directory inode with the
directory-initial link count 2 and no open handles, it succeeds, decrements
the link count to 1 (so the garbage collector never fires), and removes the
entry from the parent — leaving an unreferenced directory inode and its
content on disk. -/
theorem unlink_accepts_directory
    (fs : FS) (now ruid rgid parent : Nat) (name : String)
    (pEnt : DirectoryDescriptor) (pa va : InodeAttributes) (d : Nat) (vc : Content)
    (hpc : aGet fs.contents parent = some (Content.dir pEnt))
    (hpe : aGet pEnt name = some (d, FileKind.Directory))
    (hva : aGet fs.inodes d = some va)
    (hvaI : va.inode = d)
    (hkind : va.kind = FileKind.Directory)
    (hhl : va.hardlinks = 2)
    (hofh : va.open_file_handles = 0)
    (hpa : aGet fs.inodes parent = some pa)
    (hpaI : pa.inode = parent)
    (hw : check_access pa.uid pa.gid pa.mode ruid rgid W_OK = true)
    (hst : ¬ (pa.mode &&& S_ISVTX ≠ 0 ∧ ruid ≠ 0 ∧ ruid ≠ pa.uid ∧ ruid ≠ va.uid))
    (hdp : d ≠ parent)
    (hvc : aGet fs.contents d = some vc) :
    unlink fs now ruid rgid parent name
      = (.ok (), ⟨aInsert (aInsert fs.inodes parent
            ({ pa with last_metadata_changed := now, last_modified := now })) d
            ({ va with hardlinks := 1, last_metadata_changed := now }),
          aInsert fs.contents parent (Content.dir (aRemove pEnt name))⟩) ∧
    aGet (aInsert fs.contents parent (Content.dir (aRemove pEnt name))) d = some vc ∧
    aGet (aRemove pEnt name) name = (none : Option (Nat × FileKind)) := by
  refine ⟨?_, ?_, ?_⟩
  · simp [unlink, lookup_name, get_directory_content, get_inode, write_inode,
      write_directory_content, gc_inode, hpc, hpe, hva, hvaI, hpa, hpaI, hw, hst, hhl,
      aGet_aInsert_ne _ _ _ _ hdp, aGet_aInsert_self]
  · rw [aGet_aInsert_ne _ _ _ _ hdp]
    exact hvc
  · exact aGet_aRemove_self pEnt name

theorem unlink_accepts_directory_witness :
    unlink fsSticky 9 100 100 1 "d"
      = (.ok (), ⟨aInsert (aInsert fsSticky.inodes 1
            ({ mkAttrs 1 0 0 2 1023 FileKind.Directory with
              last_metadata_changed := 9, last_modified := 9 })) 3
            ({ mkAttrs 3 100 100 2 511 FileKind.Directory with
              hardlinks := 1, last_metadata_changed := 9 }),
          aInsert fsSticky.contents 1 (Content.dir
            (aRemove [("f", (2, FileKind.File)), ("d", (3, FileKind.Directory))] "d"))⟩) := by
  have h := unlink_accepts_directory fsSticky 9 100 100 1 "d"
    [("f", (2, FileKind.File)), ("d", (3, FileKind.Directory))]
    (mkAttrs 1 0 0 2 1023 FileKind.Directory)
    (mkAttrs 3 100 100 2 511 FileKind.Directory) 3
    (Content.dir [(".", (3, FileKind.Directory)), ("..", (1, FileKind.Directory))])
    rfl rfl rfl rfl rfl rfl rfl rfl rfl (by decide) (by decide) (by decide) rfl
  exact h.1

/-- C3: removing (`unlink`, `rmdir`) or renaming an entry out of a sticky
directory on which the caller holds `W_OK`, by a caller who is not root, not
the directory's owner and not the entry's owner, replies `EACCES` and leaves
the store unchanged; `rename` applies the same test in `new_parent` against
an existing entry under the new name. -/
theorem sticky_bit_denies_removal (fs : FS) (now ruid rgid : Nat) :
    (∀ parent name pEnt pa sI sK sa,
      aGet fs.contents parent = some (Content.dir pEnt) →
      aGet pEnt name = some (sI, sK) →
      aGet fs.inodes sI = some sa →
      aGet fs.inodes parent = some pa →
      check_access pa.uid pa.gid pa.mode ruid rgid W_OK = true →
      pa.mode &&& S_ISVTX ≠ 0 → ruid ≠ 0 → ruid ≠ pa.uid → ruid ≠ sa.uid →
      unlink fs now ruid rgid parent name = (.err .EACCES, fs)) ∧
    (∀ parent name pEnt pa sI sK sa vEnt,
      aGet fs.contents parent = some (Content.dir pEnt) →
      aGet pEnt name = some (sI, sK) →
      aGet fs.inodes sI = some sa →
      sa.inode = sI →
      aGet fs.contents sI = some (Content.dir vEnt) →
      vEnt.length ≤ 2 →
      aGet fs.inodes parent = some pa →
      check_access pa.uid pa.gid pa.mode ruid rgid W_OK = true →
      pa.mode &&& S_ISVTX ≠ 0 → ruid ≠ 0 → ruid ≠ pa.uid → ruid ≠ sa.uid →
      rmdir fs now ruid rgid parent name = (.err .EACCES, fs)) ∧
    (∀ parent name new_parent new_name pEnt pa sI sK sa,
      aGet fs.contents parent = some (Content.dir pEnt) →
      aGet pEnt name = some (sI, sK) →
      aGet fs.inodes sI = some sa →
      aGet fs.inodes parent = some pa →
      check_access pa.uid pa.gid pa.mode ruid rgid W_OK = true →
      pa.mode &&& S_ISVTX ≠ 0 → ruid ≠ 0 → ruid ≠ pa.uid → ruid ≠ sa.uid →
      rename fs now ruid rgid parent name new_parent new_name = (.err .EACCES, fs)) ∧
    (∀ parent name new_parent new_name pEnt pa sI sK sa nEnt na tI tK ta,
      aGet fs.contents parent = some (Content.dir pEnt) →
      aGet pEnt name = some (sI, sK) →
      aGet fs.inodes sI = some sa →
      aGet fs.inodes parent = some pa →
      check_access pa.uid pa.gid pa.mode ruid rgid W_OK = true →
      ¬ (pa.mode &&& S_ISVTX ≠ 0 ∧ ruid ≠ 0 ∧ ruid ≠ pa.uid ∧ ruid ≠ sa.uid) →
      aGet fs.inodes new_parent = some na →
      check_access na.uid na.gid na.mode ruid rgid W_OK = true →
      aGet fs.contents new_parent = some (Content.dir nEnt) →
      aGet nEnt new_name = some (tI, tK) →
      aGet fs.inodes tI = some ta →
      na.mode &&& S_ISVTX ≠ 0 → ruid ≠ 0 → ruid ≠ na.uid → ruid ≠ ta.uid →
      rename fs now ruid rgid parent name new_parent new_name = (.err .EACCES, fs)) := by
  refine ⟨?_, ?_, ?_, ?_⟩
  · intro parent name pEnt pa sI sK sa hpc hpe hsa hpa hw hv1 hv2 hv3 hv4
    simp [unlink, lookup_name, get_directory_content, get_inode,
      hpc, hpe, hsa, hpa, hw, hv1, hv2, hv3, hv4]
  · intro parent name pEnt pa sI sK sa vEnt hpc hpe hsa hsaI hvc hvlen hpa hw hv1 hv2 hv3 hv4
    have hnlen : ¬ vEnt.length > 2 := by omega
    simp [rmdir, lookup_name, get_directory_content, get_inode,
      hpc, hpe, hsa, hsaI, hvc, hnlen, hpa, hw, hv1, hv2, hv3, hv4]
  · intro parent name new_parent new_name pEnt pa sI sK sa hpc hpe hsa hpa hw hv1 hv2 hv3 hv4
    simp [rename, lookup_name, get_directory_content, get_inode,
      hpc, hpe, hsa, hpa, hw, hv1, hv2, hv3, hv4]
  · intro parent name new_parent new_name pEnt pa sI sK sa nEnt na tI tK ta
      hpc hpe hsa hpa hw1 hst1 hna hw2 hnc hne hta hv1 hv2 hv3 hv4
    simp [rename, rename_sticky_new_check, lookup_name, get_directory_content, get_inode,
      hpc, hpe, hsa, hpa, hw1, hst1, hna, hw2, hnc, hne, hta, hv1, hv2, hv3, hv4]

theorem sticky_bit_denies_removal_witness :
    unlink fsSticky 9 200 200 1 "f" = (.err .EACCES, fsSticky) ∧
    rmdir fsSticky 9 200 200 1 "d" = (.err .EACCES, fsSticky) ∧
    rename fsSticky 9 200 200 1 "f" 4 "g" = (.err .EACCES, fsSticky) ∧
    rename fsSticky 9 200 200 4 "s" 1 "f" = (.err .EACCES, fsSticky) := by
  have h := sticky_bit_denies_removal fsSticky 9 200 200
  refine ⟨?_, ?_, ?_, ?_⟩
  · exact h.1 1 "f" [("f", (2, FileKind.File)), ("d", (3, FileKind.Directory))]
      (mkAttrs 1 0 0 2 1023 FileKind.Directory) 2 FileKind.File
      (mkAttrs 2 100 100 1 438 FileKind.File)
      rfl rfl rfl rfl (by decide) (by decide) (by decide) (by decide) (by decide)
  · exact h.2.1 1 "d" [("f", (2, FileKind.File)), ("d", (3, FileKind.Directory))]
      (mkAttrs 1 0 0 2 1023 FileKind.Directory) 3 FileKind.Directory
      (mkAttrs 3 100 100 2 511 FileKind.Directory)
      [(".", (3, FileKind.Directory)), ("..", (1, FileKind.Directory))]
      rfl rfl rfl rfl rfl (by decide) rfl (by decide) (by decide) (by decide) (by decide)
      (by decide)
  · exact h.2.2.1 1 "f" 4 "g" [("f", (2, FileKind.File)), ("d", (3, FileKind.Directory))]
      (mkAttrs 1 0 0 2 1023 FileKind.Directory) 2 FileKind.File
      (mkAttrs 2 100 100 1 438 FileKind.File)
      rfl rfl rfl rfl (by decide) (by decide) (by decide) (by decide) (by decide)
  · exact h.2.2.2 4 "s" 1 "f" [("s", (5, FileKind.File))]
      (mkAttrs 4 0 0 2 511 FileKind.Directory) 5 FileKind.File
      (mkAttrs 5 200 200 1 438 FileKind.File)
      [("f", (2, FileKind.File)), ("d", (3, FileKind.Directory))]
      (mkAttrs 1 0 0 2 1023 FileKind.Directory) 2 FileKind.File
      (mkAttrs 2 100 100 1 438 FileKind.File)
      rfl rfl rfl rfl (by decide) (by decide) rfl (by decide) rfl rfl rfl
      (by decide) (by decide) (by decide) (by decide)

theorem rename_overwrite_step_spec
    (fs : FS) (now new_parent : Nat) (new_name : String)
    (nEnt : DirectoryDescriptor) (ta : InodeAttributes) (tI : Nat) (tK : FileKind)
    (tCont : Content)
    (hnc : aGet fs.contents new_parent = some (Content.dir nEnt))
    (hne : aGet nEnt new_name = some (tI, tK))
    (hta : aGet fs.inodes tI = some ta) (htaI : ta.inode = tI)
    (htn : tI ≠ new_parent)
    (htcont : aGet fs.contents tI = some tCont) :
    rename_overwrite_step fs now new_parent new_name
      = (.ok (),
        if (if ta.kind = FileKind.Directory then 0 else ta.hardlinks - 1) = 0 ∧
            ta.open_file_handles = 0 then
          ⟨aRemove (aInsert fs.inodes tI
              ({ ta with
                hardlinks := if ta.kind = FileKind.Directory then 0 else ta.hardlinks - 1,
                last_metadata_changed := now })) tI,
            aRemove (aInsert fs.contents new_parent
              (Content.dir (aRemove nEnt new_name))) tI⟩
        else
          ⟨aInsert fs.inodes tI
              ({ ta with
                hardlinks := if ta.kind = FileKind.Directory then 0 else ta.hardlinks - 1,
                last_metadata_changed := now }),
            aInsert fs.contents new_parent (Content.dir (aRemove nEnt new_name))⟩) := by
  by_cases htk : ta.kind = FileKind.Directory
  · by_cases hofh : ta.open_file_handles = 0
    · simp [rename_overwrite_step, lookup_name, get_directory_content, get_inode,
        write_directory_content, write_inode, gc_inode, hnc, hne, hta, htaI, htk, hofh,
        aGet_aInsert_self, aGet_aInsert_ne _ _ _ _ htn, htcont]
    · simp [rename_overwrite_step, lookup_name, get_directory_content, get_inode,
        write_directory_content, write_inode, gc_inode, hnc, hne, hta, htaI, htk, hofh,
        aGet_aInsert_self, aGet_aInsert_ne _ _ _ _ htn, htcont]
  · by_cases hl0 : ta.hardlinks - 1 = 0
    · by_cases hofh : ta.open_file_handles = 0
      · simp [rename_overwrite_step, lookup_name, get_directory_content, get_inode,
          write_directory_content, write_inode, gc_inode, hnc, hne, hta, htaI, htk, hl0,
          hofh, aGet_aInsert_self, aGet_aInsert_ne _ _ _ _ htn, htcont]
      · simp [rename_overwrite_step, lookup_name, get_directory_content, get_inode,
          write_directory_content, write_inode, gc_inode, hnc, hne, hta, htaI, htk, hl0,
          hofh, aGet_aInsert_self, aGet_aInsert_ne _ _ _ _ htn, htcont]
    · simp [rename_overwrite_step, lookup_name, get_directory_content, get_inode,
        write_directory_content, write_inode, gc_inode, hnc, hne, hta, htaI, htk, hl0,
        aGet_aInsert_self, aGet_aInsert_ne _ _ _ _ htn, htcont]

/-- C4 (amended): for a `rename` whose destination name is already bound —
to an inode distinct from the source inode (the claim fails for a rename of
an entry onto itself or onto a hard-link alias of itself) — with the
permission and sticky checks passing and a well-formed tree: if the target
is a directory with more than the two `.`/`..` entries the reply is
`ENOTEMPTY` and nothing changes; otherwise the rename succeeds, the target's
link count is decremented (cleared for a directory), the target is written
back and garbage-collected (both files removed exactly when the new link
count and the open-handle count are zero), the source entry moves to the new
name, and a lookup of the old name now yields `ENOENT`. -/
theorem rename_overwrite_semantics
    (fs : FS) (now ruid rgid parent : Nat) (name : String) (new_parent : Nat)
    (new_name : String)
    (pEnt nEnt : DirectoryDescriptor) (pa na sa ta : InodeAttributes)
    (sI tI : Nat) (sK tK : FileKind) (tCont : Content)
    (hpc : aGet fs.contents parent = some (Content.dir pEnt))
    (hpe : aGet pEnt name = some (sI, sK))
    (hsa : aGet fs.inodes sI = some sa) (hsaI : sa.inode = sI)
    (hpa : aGet fs.inodes parent = some pa) (hpaI : pa.inode = parent)
    (hna : aGet fs.inodes new_parent = some na) (hnaI : na.inode = new_parent)
    (hnc : aGet fs.contents new_parent = some (Content.dir nEnt))
    (hne : aGet nEnt new_name = some (tI, tK))
    (hta : aGet fs.inodes tI = some ta) (htaI : ta.inode = tI)
    (hw1 : check_access pa.uid pa.gid pa.mode ruid rgid W_OK = true)
    (hst1 : ¬ (pa.mode &&& S_ISVTX ≠ 0 ∧ ruid ≠ 0 ∧ ruid ≠ pa.uid ∧ ruid ≠ sa.uid))
    (hw2 : check_access na.uid na.gid na.mode ruid rgid W_OK = true)
    (hst2 : ¬ (ruid ≠ 0 ∧ ruid ≠ na.uid ∧ ruid ≠ ta.uid))
    (hts : tI ≠ sI) (htp : tI ≠ parent) (htn : tI ≠ new_parent)
    (hsp : sI ≠ parent) (hsn : sI ≠ new_parent)
    (htcont : aGet fs.contents tI = some tCont) :
    (∀ tEnt, ta.kind = FileKind.Directory → tCont = Content.dir tEnt → tEnt.length > 2 →
      rename fs now ruid rgid parent name new_parent new_name = (.err .ENOTEMPTY, fs)) ∧
    ((ta.kind = FileKind.Directory → ∃ tEnt, tCont = Content.dir tEnt ∧ tEnt.length ≤ 2) →
     (sa.kind = FileKind.Directory → parent ≠ new_parent →
        check_access sa.uid sa.gid sa.mode ruid rgid W_OK = true) →
     (sa.kind = FileKind.Directory → ∃ sEnt, aGet fs.contents sI = some (Content.dir sEnt)) →
      (rename fs now ruid rgid parent name new_parent new_name).1 = .ok () ∧
      (if (if ta.kind = FileKind.Directory then 0 else ta.hardlinks - 1) = 0 ∧
          ta.open_file_handles = 0 then
        aGet (rename fs now ruid rgid parent name new_parent new_name).2.inodes tI = none ∧
        aGet (rename fs now ruid rgid parent name new_parent new_name).2.contents tI = none
      else
        aGet (rename fs now ruid rgid parent name new_parent new_name).2.inodes tI
          = some { ta with
              hardlinks := if ta.kind = FileKind.Directory then 0 else ta.hardlinks - 1,
              last_metadata_changed := now }) ∧
      (∃ nEnt2, aGet (rename fs now ruid rgid parent name new_parent new_name).2.contents new_parent
          = some (Content.dir (aInsert nEnt2 new_name (sa.inode, sa.kind)))) ∧
      lookup_name (rename fs now ruid rgid parent name new_parent new_name).2 parent name
        = .err .ENOENT) := by
  have hsc : rename_sticky_new_check fs ruid new_parent na new_name = .ok () := by
    by_cases hv : na.mode &&& S_ISVTX ≠ 0
    · simp [rename_sticky_new_check, hv, lookup_name, get_directory_content, get_inode,
        hnc, hne, hta, hst2]
    · simp [rename_sticky_new_check, hv]
  constructor
  · intro tEnt htk htc hlen
    have hec : rename_target_empty_check fs new_parent new_name = .err .ENOTEMPTY := by
      subst htc
      simp [rename_target_empty_check, lookup_name, get_directory_content, get_inode,
        hnc, hne, hta, htk, htaI, htcont, hlen]
    simp [rename, lookup_name, get_directory_content, get_inode,
      hpc, hpe, hsa, hpa, hw1, hst1, hna, hw2, hsc, hec]
  · intro hTok hmv hscont
    have hempty : rename_target_empty_check fs new_parent new_name = .ok () := by
      by_cases htk : ta.kind = FileKind.Directory
      · obtain ⟨tEnt, htc, hlen⟩ := hTok htk
        subst htc
        have hnlen : ¬ tEnt.length > 2 := by omega
        simp [rename_target_empty_check, lookup_name, get_directory_content, get_inode,
          hnc, hne, hta, htk, htaI, htcont, hnlen]
      · simp [rename_target_empty_check, lookup_name, get_directory_content, get_inode,
          hnc, hne, hta, htk]
    have hmvpass : ¬ (sa.kind = FileKind.Directory ∧ parent ≠ new_parent ∧
        check_access sa.uid sa.gid sa.mode ruid rgid W_OK = false) := by
      rintro ⟨hk, hpn, hcf⟩
      rw [hmv hk hpn] at hcf
      exact Bool.noConfusion hcf
    have hov := rename_overwrite_step_spec fs now new_parent new_name nEnt ta tI tK tCont
      hnc hne hta htaI htn htcont
    by_cases hpn : parent = new_parent
    · subst hpn
      have hEnt : nEnt = pEnt := by
        have h := hnc.symm.trans hpc
        simpa using h
      subst hEnt
      have hnax : na = pa := by
        have h := hna.symm.trans hpa
        simpa using h
      subst hnax
      have hnm : name ≠ new_name := by
        intro hEq
        rw [hEq] at hpe
        rw [hpe] at hne
        simp at hne
        exact hts hne.1.symm
      by_cases htk : ta.kind = FileKind.Directory
      · by_cases hofh : ta.open_file_handles = 0
        · by_cases hdk : sa.kind = FileKind.Directory
          · obtain ⟨sEnt, hscontv⟩ := hscont hdk
            refine ⟨?_, ?_, ⟨aRemove (aRemove nEnt new_name) name, ?_⟩, ?_⟩ <;>
              simp [rename, lookup_name, get_directory_content, get_inode, write_inode,
              write_directory_content, hpc, hpe, hsa, hsaI, hpa, hpaI, hne, hta, htaI,
              hw1, hst1, hw2, hsc, hempty, hmvpass, hov, hnm,
              aGet_aInsert_self, aGet_aRemove_self, aGet_aRemove_ne _ _ _ (Ne.symm hts),
              aGet_aRemove_ne _ _ _ (Ne.symm htp),
              aGet_aInsert_ne _ _ _ _ htp, aGet_aInsert_ne _ _ _ _ hts,
              aGet_aInsert_ne _ _ _ _ hsp, aGet_aInsert_ne _ _ _ _ (Ne.symm hsp),
              aGet_aInsert_ne _ _ _ _ hnm,
                htk, hofh, hdk, hscontv]
          · refine ⟨?_, ?_, ⟨aRemove (aRemove nEnt new_name) name, ?_⟩, ?_⟩ <;>
              simp [rename, lookup_name, get_directory_content, get_inode, write_inode,
              write_directory_content, hpc, hpe, hsa, hsaI, hpa, hpaI, hne, hta, htaI,
              hw1, hst1, hw2, hsc, hempty, hmvpass, hov, hnm,
              aGet_aInsert_self, aGet_aRemove_self, aGet_aRemove_ne _ _ _ (Ne.symm hts),
              aGet_aRemove_ne _ _ _ (Ne.symm htp),
              aGet_aInsert_ne _ _ _ _ htp, aGet_aInsert_ne _ _ _ _ hts,
              aGet_aInsert_ne _ _ _ _ hsp, aGet_aInsert_ne _ _ _ _ (Ne.symm hsp),
              aGet_aInsert_ne _ _ _ _ hnm,
                htk, hofh, hdk]
        · by_cases hdk : sa.kind = FileKind.Directory
          · obtain ⟨sEnt, hscontv⟩ := hscont hdk
            refine ⟨?_, ?_, ⟨aRemove (aRemove nEnt new_name) name, ?_⟩, ?_⟩ <;>
              simp [rename, lookup_name, get_directory_content, get_inode, write_inode,
              write_directory_content, hpc, hpe, hsa, hsaI, hpa, hpaI, hne, hta, htaI,
              hw1, hst1, hw2, hsc, hempty, hmvpass, hov, hnm,
              aGet_aInsert_self, aGet_aRemove_self, aGet_aRemove_ne _ _ _ (Ne.symm hts),
              aGet_aRemove_ne _ _ _ (Ne.symm htp),
              aGet_aInsert_ne _ _ _ _ htp, aGet_aInsert_ne _ _ _ _ hts,
              aGet_aInsert_ne _ _ _ _ hsp, aGet_aInsert_ne _ _ _ _ (Ne.symm hsp),
              aGet_aInsert_ne _ _ _ _ hnm,
                htk, hofh, hdk, hscontv]
          · refine ⟨?_, ?_, ⟨aRemove (aRemove nEnt new_name) name, ?_⟩, ?_⟩ <;>
              simp [rename, lookup_name, get_directory_content, get_inode, write_inode,
              write_directory_content, hpc, hpe, hsa, hsaI, hpa, hpaI, hne, hta, htaI,
              hw1, hst1, hw2, hsc, hempty, hmvpass, hov, hnm,
              aGet_aInsert_self, aGet_aRemove_self, aGet_aRemove_ne _ _ _ (Ne.symm hts),
              aGet_aRemove_ne _ _ _ (Ne.symm htp),
              aGet_aInsert_ne _ _ _ _ htp, aGet_aInsert_ne _ _ _ _ hts,
              aGet_aInsert_ne _ _ _ _ hsp, aGet_aInsert_ne _ _ _ _ (Ne.symm hsp),
              aGet_aInsert_ne _ _ _ _ hnm,
                htk, hofh, hdk]
      · by_cases hl0 : ta.hardlinks - 1 = 0
        · by_cases hofh : ta.open_file_handles = 0
          · by_cases hdk : sa.kind = FileKind.Directory
            · obtain ⟨sEnt, hscontv⟩ := hscont hdk
              refine ⟨?_, ?_, ⟨aRemove (aRemove nEnt new_name) name, ?_⟩, ?_⟩ <;>
                simp [rename, lookup_name, get_directory_content, get_inode, write_inode,
              write_directory_content, hpc, hpe, hsa, hsaI, hpa, hpaI, hne, hta, htaI,
              hw1, hst1, hw2, hsc, hempty, hmvpass, hov, hnm,
              aGet_aInsert_self, aGet_aRemove_self, aGet_aRemove_ne _ _ _ (Ne.symm hts),
              aGet_aRemove_ne _ _ _ (Ne.symm htp),
              aGet_aInsert_ne _ _ _ _ htp, aGet_aInsert_ne _ _ _ _ hts,
              aGet_aInsert_ne _ _ _ _ hsp, aGet_aInsert_ne _ _ _ _ (Ne.symm hsp),
              aGet_aInsert_ne _ _ _ _ hnm,
                  htk, hl0, hofh, hdk, hscontv]
            · refine ⟨?_, ?_, ⟨aRemove (aRemove nEnt new_name) name, ?_⟩, ?_⟩ <;>
                simp [rename, lookup_name, get_directory_content, get_inode, write_inode,
              write_directory_content, hpc, hpe, hsa, hsaI, hpa, hpaI, hne, hta, htaI,
              hw1, hst1, hw2, hsc, hempty, hmvpass, hov, hnm,
              aGet_aInsert_self, aGet_aRemove_self, aGet_aRemove_ne _ _ _ (Ne.symm hts),
              aGet_aRemove_ne _ _ _ (Ne.symm htp),
              aGet_aInsert_ne _ _ _ _ htp, aGet_aInsert_ne _ _ _ _ hts,
              aGet_aInsert_ne _ _ _ _ hsp, aGet_aInsert_ne _ _ _ _ (Ne.symm hsp),
              aGet_aInsert_ne _ _ _ _ hnm,
                  htk, hl0, hofh, hdk]
          · by_cases hdk : sa.kind = FileKind.Directory
            · obtain ⟨sEnt, hscontv⟩ := hscont hdk
              refine ⟨?_, ?_, ⟨aRemove (aRemove nEnt new_name) name, ?_⟩, ?_⟩ <;>
                simp [rename, lookup_name, get_directory_content, get_inode, write_inode,
              write_directory_content, hpc, hpe, hsa, hsaI, hpa, hpaI, hne, hta, htaI,
              hw1, hst1, hw2, hsc, hempty, hmvpass, hov, hnm,
              aGet_aInsert_self, aGet_aRemove_self, aGet_aRemove_ne _ _ _ (Ne.symm hts),
              aGet_aRemove_ne _ _ _ (Ne.symm htp),
              aGet_aInsert_ne _ _ _ _ htp, aGet_aInsert_ne _ _ _ _ hts,
              aGet_aInsert_ne _ _ _ _ hsp, aGet_aInsert_ne _ _ _ _ (Ne.symm hsp),
              aGet_aInsert_ne _ _ _ _ hnm,
                  htk, hl0, hofh, hdk, hscontv]
            · refine ⟨?_, ?_, ⟨aRemove (aRemove nEnt new_name) name, ?_⟩, ?_⟩ <;>
                simp [rename, lookup_name, get_directory_content, get_inode, write_inode,
              write_directory_content, hpc, hpe, hsa, hsaI, hpa, hpaI, hne, hta, htaI,
              hw1, hst1, hw2, hsc, hempty, hmvpass, hov, hnm,
              aGet_aInsert_self, aGet_aRemove_self, aGet_aRemove_ne _ _ _ (Ne.symm hts),
              aGet_aRemove_ne _ _ _ (Ne.symm htp),
              aGet_aInsert_ne _ _ _ _ htp, aGet_aInsert_ne _ _ _ _ hts,
              aGet_aInsert_ne _ _ _ _ hsp, aGet_aInsert_ne _ _ _ _ (Ne.symm hsp),
              aGet_aInsert_ne _ _ _ _ hnm,
                  htk, hl0, hofh, hdk]
        · by_cases hdk : sa.kind = FileKind.Directory
          · obtain ⟨sEnt, hscontv⟩ := hscont hdk
            refine ⟨?_, ?_, ⟨aRemove (aRemove nEnt new_name) name, ?_⟩, ?_⟩ <;>
              simp [rename, lookup_name, get_directory_content, get_inode, write_inode,
              write_directory_content, hpc, hpe, hsa, hsaI, hpa, hpaI, hne, hta, htaI,
              hw1, hst1, hw2, hsc, hempty, hmvpass, hov, hnm,
              aGet_aInsert_self, aGet_aRemove_self, aGet_aRemove_ne _ _ _ (Ne.symm hts),
              aGet_aRemove_ne _ _ _ (Ne.symm htp),
              aGet_aInsert_ne _ _ _ _ htp, aGet_aInsert_ne _ _ _ _ hts,
              aGet_aInsert_ne _ _ _ _ hsp, aGet_aInsert_ne _ _ _ _ (Ne.symm hsp),
              aGet_aInsert_ne _ _ _ _ hnm,
                htk, hl0, hdk, hscontv]
          · refine ⟨?_, ?_, ⟨aRemove (aRemove nEnt new_name) name, ?_⟩, ?_⟩ <;>
              simp [rename, lookup_name, get_directory_content, get_inode, write_inode,
              write_directory_content, hpc, hpe, hsa, hsaI, hpa, hpaI, hne, hta, htaI,
              hw1, hst1, hw2, hsc, hempty, hmvpass, hov, hnm,
              aGet_aInsert_self, aGet_aRemove_self, aGet_aRemove_ne _ _ _ (Ne.symm hts),
              aGet_aRemove_ne _ _ _ (Ne.symm htp),
              aGet_aInsert_ne _ _ _ _ htp, aGet_aInsert_ne _ _ _ _ hts,
              aGet_aInsert_ne _ _ _ _ hsp, aGet_aInsert_ne _ _ _ _ (Ne.symm hsp),
              aGet_aInsert_ne _ _ _ _ hnm,
                htk, hl0, hdk]
    · have hnp : new_parent ≠ parent := fun h => hpn h.symm
      by_cases htk : ta.kind = FileKind.Directory
      · by_cases hofh : ta.open_file_handles = 0
        · by_cases hdk : sa.kind = FileKind.Directory
          · obtain ⟨sEnt, hscontv⟩ := hscont hdk
            refine ⟨?_, ?_, ⟨aRemove nEnt new_name, ?_⟩, ?_⟩ <;>
              simp [rename, lookup_name, get_directory_content, get_inode, write_inode,
              write_directory_content, hpc, hpe, hsa, hsaI, hpa, hpaI, hna, hnaI, hnc,
              hne, hta, htaI, hw1, hst1, hw2, hsc, hempty, hmvpass, hov, hpn, hnp,
              aGet_aInsert_self, aGet_aRemove_self, aGet_aRemove_ne _ _ _ (Ne.symm hts),
              aGet_aRemove_ne _ _ _ (Ne.symm htp), aGet_aRemove_ne _ _ _ (Ne.symm htn),
              aGet_aInsert_ne _ _ _ _ htp, aGet_aInsert_ne _ _ _ _ htn,
              aGet_aInsert_ne _ _ _ _ hts, aGet_aInsert_ne _ _ _ _ hsp,
              aGet_aInsert_ne _ _ _ _ hsn, aGet_aInsert_ne _ _ _ _ (Ne.symm hsp),
              aGet_aInsert_ne _ _ _ _ (Ne.symm hsn), aGet_aInsert_ne _ _ _ _ hpn,
              aGet_aInsert_ne _ _ _ _ hnp,
                htk, hofh, hdk, hscontv, hmv hdk hpn]
          · refine ⟨?_, ?_, ⟨aRemove nEnt new_name, ?_⟩, ?_⟩ <;>
              simp [rename, lookup_name, get_directory_content, get_inode, write_inode,
              write_directory_content, hpc, hpe, hsa, hsaI, hpa, hpaI, hna, hnaI, hnc,
              hne, hta, htaI, hw1, hst1, hw2, hsc, hempty, hmvpass, hov, hpn, hnp,
              aGet_aInsert_self, aGet_aRemove_self, aGet_aRemove_ne _ _ _ (Ne.symm hts),
              aGet_aRemove_ne _ _ _ (Ne.symm htp), aGet_aRemove_ne _ _ _ (Ne.symm htn),
              aGet_aInsert_ne _ _ _ _ htp, aGet_aInsert_ne _ _ _ _ htn,
              aGet_aInsert_ne _ _ _ _ hts, aGet_aInsert_ne _ _ _ _ hsp,
              aGet_aInsert_ne _ _ _ _ hsn, aGet_aInsert_ne _ _ _ _ (Ne.symm hsp),
              aGet_aInsert_ne _ _ _ _ (Ne.symm hsn), aGet_aInsert_ne _ _ _ _ hpn,
              aGet_aInsert_ne _ _ _ _ hnp,
                htk, hofh, hdk]
        · by_cases hdk : sa.kind = FileKind.Directory
          · obtain ⟨sEnt, hscontv⟩ := hscont hdk
            refine ⟨?_, ?_, ⟨aRemove nEnt new_name, ?_⟩, ?_⟩ <;>
              simp [rename, lookup_name, get_directory_content, get_inode, write_inode,
              write_directory_content, hpc, hpe, hsa, hsaI, hpa, hpaI, hna, hnaI, hnc,
              hne, hta, htaI, hw1, hst1, hw2, hsc, hempty, hmvpass, hov, hpn, hnp,
              aGet_aInsert_self, aGet_aRemove_self, aGet_aRemove_ne _ _ _ (Ne.symm hts),
              aGet_aRemove_ne _ _ _ (Ne.symm htp), aGet_aRemove_ne _ _ _ (Ne.symm htn),
              aGet_aInsert_ne _ _ _ _ htp, aGet_aInsert_ne _ _ _ _ htn,
              aGet_aInsert_ne _ _ _ _ hts, aGet_aInsert_ne _ _ _ _ hsp,
              aGet_aInsert_ne _ _ _ _ hsn, aGet_aInsert_ne _ _ _ _ (Ne.symm hsp),
              aGet_aInsert_ne _ _ _ _ (Ne.symm hsn), aGet_aInsert_ne _ _ _ _ hpn,
              aGet_aInsert_ne _ _ _ _ hnp,
                htk, hofh, hdk, hscontv, hmv hdk hpn]
          · refine ⟨?_, ?_, ⟨aRemove nEnt new_name, ?_⟩, ?_⟩ <;>
              simp [rename, lookup_name, get_directory_content, get_inode, write_inode,
              write_directory_content, hpc, hpe, hsa, hsaI, hpa, hpaI, hna, hnaI, hnc,
              hne, hta, htaI, hw1, hst1, hw2, hsc, hempty, hmvpass, hov, hpn, hnp,
              aGet_aInsert_self, aGet_aRemove_self, aGet_aRemove_ne _ _ _ (Ne.symm hts),
              aGet_aRemove_ne _ _ _ (Ne.symm htp), aGet_aRemove_ne _ _ _ (Ne.symm htn),
              aGet_aInsert_ne _ _ _ _ htp, aGet_aInsert_ne _ _ _ _ htn,
              aGet_aInsert_ne _ _ _ _ hts, aGet_aInsert_ne _ _ _ _ hsp,
              aGet_aInsert_ne _ _ _ _ hsn, aGet_aInsert_ne _ _ _ _ (Ne.symm hsp),
              aGet_aInsert_ne _ _ _ _ (Ne.symm hsn), aGet_aInsert_ne _ _ _ _ hpn,
              aGet_aInsert_ne _ _ _ _ hnp,
                htk, hofh, hdk]
      · by_cases hl0 : ta.hardlinks - 1 = 0
        · by_cases hofh : ta.open_file_handles = 0
          · by_cases hdk : sa.kind = FileKind.Directory
            · obtain ⟨sEnt, hscontv⟩ := hscont hdk
              refine ⟨?_, ?_, ⟨aRemove nEnt new_name, ?_⟩, ?_⟩ <;>
                simp [rename, lookup_name, get_directory_content, get_inode, write_inode,
              write_directory_content, hpc, hpe, hsa, hsaI, hpa, hpaI, hna, hnaI, hnc,
              hne, hta, htaI, hw1, hst1, hw2, hsc, hempty, hmvpass, hov, hpn, hnp,
              aGet_aInsert_self, aGet_aRemove_self, aGet_aRemove_ne _ _ _ (Ne.symm hts),
              aGet_aRemove_ne _ _ _ (Ne.symm htp), aGet_aRemove_ne _ _ _ (Ne.symm htn),
              aGet_aInsert_ne _ _ _ _ htp, aGet_aInsert_ne _ _ _ _ htn,
              aGet_aInsert_ne _ _ _ _ hts, aGet_aInsert_ne _ _ _ _ hsp,
              aGet_aInsert_ne _ _ _ _ hsn, aGet_aInsert_ne _ _ _ _ (Ne.symm hsp),
              aGet_aInsert_ne _ _ _ _ (Ne.symm hsn), aGet_aInsert_ne _ _ _ _ hpn,
              aGet_aInsert_ne _ _ _ _ hnp,
                  htk, hl0, hofh, hdk, hscontv, hmv hdk hpn]
            · refine ⟨?_, ?_, ⟨aRemove nEnt new_name, ?_⟩, ?_⟩ <;>
                simp [rename, lookup_name, get_directory_content, get_inode, write_inode,
              write_directory_content, hpc, hpe, hsa, hsaI, hpa, hpaI, hna, hnaI, hnc,
              hne, hta, htaI, hw1, hst1, hw2, hsc, hempty, hmvpass, hov, hpn, hnp,
              aGet_aInsert_self, aGet_aRemove_self, aGet_aRemove_ne _ _ _ (Ne.symm hts),
              aGet_aRemove_ne _ _ _ (Ne.symm htp), aGet_aRemove_ne _ _ _ (Ne.symm htn),
              aGet_aInsert_ne _ _ _ _ htp, aGet_aInsert_ne _ _ _ _ htn,
              aGet_aInsert_ne _ _ _ _ hts, aGet_aInsert_ne _ _ _ _ hsp,
              aGet_aInsert_ne _ _ _ _ hsn, aGet_aInsert_ne _ _ _ _ (Ne.symm hsp),
              aGet_aInsert_ne _ _ _ _ (Ne.symm hsn), aGet_aInsert_ne _ _ _ _ hpn,
              aGet_aInsert_ne _ _ _ _ hnp,
                  htk, hl0, hofh, hdk]
          · by_cases hdk : sa.kind = FileKind.Directory
            · obtain ⟨sEnt, hscontv⟩ := hscont hdk
              refine ⟨?_, ?_, ⟨aRemove nEnt new_name, ?_⟩, ?_⟩ <;>
                simp [rename, lookup_name, get_directory_content, get_inode, write_inode,
              write_directory_content, hpc, hpe, hsa, hsaI, hpa, hpaI, hna, hnaI, hnc,
              hne, hta, htaI, hw1, hst1, hw2, hsc, hempty, hmvpass, hov, hpn, hnp,
              aGet_aInsert_self, aGet_aRemove_self, aGet_aRemove_ne _ _ _ (Ne.symm hts),
              aGet_aRemove_ne _ _ _ (Ne.symm htp), aGet_aRemove_ne _ _ _ (Ne.symm htn),
              aGet_aInsert_ne _ _ _ _ htp, aGet_aInsert_ne _ _ _ _ htn,
              aGet_aInsert_ne _ _ _ _ hts, aGet_aInsert_ne _ _ _ _ hsp,
              aGet_aInsert_ne _ _ _ _ hsn, aGet_aInsert_ne _ _ _ _ (Ne.symm hsp),
              aGet_aInsert_ne _ _ _ _ (Ne.symm hsn), aGet_aInsert_ne _ _ _ _ hpn,
              aGet_aInsert_ne _ _ _ _ hnp,
                  htk, hl0, hofh, hdk, hscontv, hmv hdk hpn]
            · refine ⟨?_, ?_, ⟨aRemove nEnt new_name, ?_⟩, ?_⟩ <;>
                simp [rename, lookup_name, get_directory_content, get_inode, write_inode,
              write_directory_content, hpc, hpe, hsa, hsaI, hpa, hpaI, hna, hnaI, hnc,
              hne, hta, htaI, hw1, hst1, hw2, hsc, hempty, hmvpass, hov, hpn, hnp,
              aGet_aInsert_self, aGet_aRemove_self, aGet_aRemove_ne _ _ _ (Ne.symm hts),
              aGet_aRemove_ne _ _ _ (Ne.symm htp), aGet_aRemove_ne _ _ _ (Ne.symm htn),
              aGet_aInsert_ne _ _ _ _ htp, aGet_aInsert_ne _ _ _ _ htn,
              aGet_aInsert_ne _ _ _ _ hts, aGet_aInsert_ne _ _ _ _ hsp,
              aGet_aInsert_ne _ _ _ _ hsn, aGet_aInsert_ne _ _ _ _ (Ne.symm hsp),
              aGet_aInsert_ne _ _ _ _ (Ne.symm hsn), aGet_aInsert_ne _ _ _ _ hpn,
              aGet_aInsert_ne _ _ _ _ hnp,
                  htk, hl0, hofh, hdk]
        · by_cases hdk : sa.kind = FileKind.Directory
          · obtain ⟨sEnt, hscontv⟩ := hscont hdk
            refine ⟨?_, ?_, ⟨aRemove nEnt new_name, ?_⟩, ?_⟩ <;>
              simp [rename, lookup_name, get_directory_content, get_inode, write_inode,
              write_directory_content, hpc, hpe, hsa, hsaI, hpa, hpaI, hna, hnaI, hnc,
              hne, hta, htaI, hw1, hst1, hw2, hsc, hempty, hmvpass, hov, hpn, hnp,
              aGet_aInsert_self, aGet_aRemove_self, aGet_aRemove_ne _ _ _ (Ne.symm hts),
              aGet_aRemove_ne _ _ _ (Ne.symm htp), aGet_aRemove_ne _ _ _ (Ne.symm htn),
              aGet_aInsert_ne _ _ _ _ htp, aGet_aInsert_ne _ _ _ _ htn,
              aGet_aInsert_ne _ _ _ _ hts, aGet_aInsert_ne _ _ _ _ hsp,
              aGet_aInsert_ne _ _ _ _ hsn, aGet_aInsert_ne _ _ _ _ (Ne.symm hsp),
              aGet_aInsert_ne _ _ _ _ (Ne.symm hsn), aGet_aInsert_ne _ _ _ _ hpn,
              aGet_aInsert_ne _ _ _ _ hnp,
                htk, hl0, hdk, hscontv, hmv hdk hpn]
          · refine ⟨?_, ?_, ⟨aRemove nEnt new_name, ?_⟩, ?_⟩ <;>
              simp [rename, lookup_name, get_directory_content, get_inode, write_inode,
              write_directory_content, hpc, hpe, hsa, hsaI, hpa, hpaI, hna, hnaI, hnc,
              hne, hta, htaI, hw1, hst1, hw2, hsc, hempty, hmvpass, hov, hpn, hnp,
              aGet_aInsert_self, aGet_aRemove_self, aGet_aRemove_ne _ _ _ (Ne.symm hts),
              aGet_aRemove_ne _ _ _ (Ne.symm htp), aGet_aRemove_ne _ _ _ (Ne.symm htn),
              aGet_aInsert_ne _ _ _ _ htp, aGet_aInsert_ne _ _ _ _ htn,
              aGet_aInsert_ne _ _ _ _ hts, aGet_aInsert_ne _ _ _ _ hsp,
              aGet_aInsert_ne _ _ _ _ hsn, aGet_aInsert_ne _ _ _ _ (Ne.symm hsp),
              aGet_aInsert_ne _ _ _ _ (Ne.symm hsn), aGet_aInsert_ne _ _ _ _ hpn,
              aGet_aInsert_ne _ _ _ _ hnp,
                htk, hl0, hdk]

/-- C4 counterexample to the unamended claim: the root directory of
`fsAlias` binds both `"a"` and `"b"` to the same file inode 2 (link count 2).
`rename(1, "a", 1, "b")` finds an existing non-directory target under `"b"`,
so the claim demands the target's link count drop to 1.  The rename succeeds,
but the handler's final write-back of the stale source attribute record
restores the link count to 2. -/
theorem rename_overwrite_counterexample :
    (rename fsAlias 9 0 0 1 "a" 1 "b").1 = .ok () ∧
    (aGet (rename fsAlias 9 0 0 1 "a" 1 "b").2.inodes 2).map InodeAttributes.hardlinks
      = some 2 := by
  constructor
  · decide
  · decide

theorem rename_overwrite_semantics_witness :
    rename fsOver 9 0 0 1 "a" 1 "d" = (.err .ENOTEMPTY, fsOver) ∧
    (rename fsOver 9 0 0 1 "a" 1 "b").1 = .ok () ∧
    aGet (rename fsOver 9 0 0 1 "a" 1 "b").2.inodes 3 = none ∧
    aGet (rename fsOver 9 0 0 1 "a" 1 "b").2.contents 3 = none ∧
    lookup_name (rename fsOver 9 0 0 1 "a" 1 "b").2 1 "a" = .err .ENOENT := by
  have hE := rename_overwrite_semantics fsOver 9 0 0 1 "a" 1 "d"
    [("a", (2, FileKind.File)), ("b", (3, FileKind.File)), ("d", (4, FileKind.Directory))]
    [("a", (2, FileKind.File)), ("b", (3, FileKind.File)), ("d", (4, FileKind.Directory))]
    (mkAttrs 1 0 0 2 511 FileKind.Directory) (mkAttrs 1 0 0 2 511 FileKind.Directory)
    (mkAttrs 2 0 0 1 438 FileKind.File) (mkAttrs 4 0 0 2 511 FileKind.Directory)
    2 4 FileKind.File FileKind.Directory
    (Content.dir [(".", (4, FileKind.Directory)), ("..", (1, FileKind.Directory)),
      ("x", (2, FileKind.File))])
    rfl rfl rfl rfl rfl rfl rfl rfl rfl rfl rfl rfl (by decide) (by decide) (by decide)
    (by decide) (by decide) (by decide) (by decide) (by decide) (by decide) rfl
  have hS := rename_overwrite_semantics fsOver 9 0 0 1 "a" 1 "b"
    [("a", (2, FileKind.File)), ("b", (3, FileKind.File)), ("d", (4, FileKind.Directory))]
    [("a", (2, FileKind.File)), ("b", (3, FileKind.File)), ("d", (4, FileKind.Directory))]
    (mkAttrs 1 0 0 2 511 FileKind.Directory) (mkAttrs 1 0 0 2 511 FileKind.Directory)
    (mkAttrs 2 0 0 1 438 FileKind.File) (mkAttrs 3 0 0 1 438 FileKind.File)
    2 3 FileKind.File FileKind.File (Content.bytes [])
    rfl rfl rfl rfl rfl rfl rfl rfl rfl rfl rfl rfl (by decide) (by decide) (by decide)
    (by decide) (by decide) (by decide) (by decide) (by decide) (by decide) rfl
  obtain ⟨hok, hgcc, hnent, hlk⟩ := hS.2 (fun h => absurd h (by decide))
    (fun h => absurd h (by decide)) (fun h => absurd h (by decide))
  exact ⟨hE.1 [(".", (4, FileKind.Directory)), ("..", (1, FileKind.Directory)),
      ("x", (2, FileKind.File))] rfl rfl (by decide),
    hok, by decide, by decide, hlk⟩

end SimpleFS
